import Mathlib

/-!
Verification model of the option-strategy-simulator pricing and analytics
engine (repository `dboonstra/option-strategy-simulator`).

The repository ships its user-facing documentation under `src/README.md` and
`src/Usage.md`; the latter contains a fully worked example together with the
exact numeric output of the engine (legs, composite summary, and P&L
snapshots).  The Python implementation module itself is not part of the
available sources, so the definitions below are modelled from the design
specification, corrected where the documented example output under
`src/Usage.md` pins down the actual behavior.  Floating-point numbers are
modelled as real numbers.
-/

open MeasureTheory Real

open Classical in
/-- Kind of a position leg: `C` (call), `P` (put) or `S` (stock),
mirroring the `option_type` strings of `add_leg` in `src/Usage.md`. -/
inductive OptionKind where
  | call
  | put
  | stock
deriving DecidableEq

/-- Errors of the engine, modelled from the spec: §7 lists InvalidInput,
InvalidArgument, ConvergenceError and NotImplemented failures. -/
inductive SimError where
  | invalidInput
  | invalidArgument
  | convergenceError
  | notImplemented
deriving DecidableEq

/-- Result record of the pricing model: price plus the four Greeks.
Modelled from the spec: §3 "PricingResult" and the tuple returned by
`black_scholes` in `src/dev/theo_price_workbook.ipynb`. -/
structure BSResult where
  price : ℝ
  delta : ℝ
  theta : ℝ
  vega : ℝ
  gamma : ℝ

/-- Standard normal probability density function. -/
noncomputable def normPdf (x : ℝ) : ℝ :=
  (Real.sqrt (2 * Real.pi))⁻¹ * Real.exp (-x ^ 2 / 2)

/-- Standard normal cumulative distribution function, the `N` of the
Black-Scholes closed form.  Modelled from the spec: §4.1 calls for a
library-grade accurate normal CDF; we use the defining integral. -/
noncomputable def normCdf (x : ℝ) : ℝ :=
  ∫ t in Set.Iic x, normPdf t

/-- Intrinsic value of an option: payoff if exercised immediately. -/
noncomputable def intrinsicValue (kind : OptionKind) (S K : ℝ) : ℝ :=
  match kind with
  | .call => max (S - K) 0
  | .put => max (K - S) 0
  | .stock => S

/-- Modelled from the spec: §4.1 PricingModel (the `black_scholes` function of
the missing implementation module, invoked in `src/dev/theo_price_workbook.ipynb`).
Standard lognormal-diffusion closed form with continuous discounting; time in
years is `days / yearDays`.  Degenerate branch for `days ≤ 0` or `vol ≤ 0`:
price is the intrinsic value, delta is `±1` strictly in-the-money and `0`
otherwise, and theta, vega, gamma vanish.  The stock kind bypasses the formula
(price is the underlying price, unit delta, zero other Greeks). -/
noncomputable def blackScholes (kind : OptionKind) (S K days vol r yearDays : ℝ) :
    BSResult :=
  if days ≤ 0 ∨ vol ≤ 0 then
    match kind with
    | .call =>
        { price := max (S - K) 0, delta := if K < S then 1 else 0,
          theta := 0, vega := 0, gamma := 0 }
    | .put =>
        { price := max (K - S) 0, delta := if S < K then -1 else 0,
          theta := 0, vega := 0, gamma := 0 }
    | .stock => { price := S, delta := 1, theta := 0, vega := 0, gamma := 0 }
  else
    let t := days / yearDays
    let sq := Real.sqrt t
    let d1 := (Real.log (S / K) + (r + vol ^ 2 / 2) * t) / (vol * sq)
    let d2 := d1 - vol * sq
    let disc := Real.exp (-r * t)
    match kind with
    | .call =>
        { price := S * normCdf d1 - K * disc * normCdf d2,
          delta := normCdf d1,
          theta := (-(S * normPdf d1 * vol) / (2 * sq) -
            r * K * disc * normCdf d2) / yearDays,
          vega := S * normPdf d1 * sq,
          gamma := normPdf d1 / (S * vol * sq) }
    | .put =>
        { price := K * disc * normCdf (-d2) - S * normCdf (-d1),
          delta := normCdf d1 - 1,
          theta := (-(S * normPdf d1 * vol) / (2 * sq) +
            r * K * disc * normCdf (-d2)) / yearDays,
          vega := S * normPdf d1 * sq,
          gamma := normPdf d1 / (S * vol * sq) }
    | .stock => { price := S, delta := 1, theta := 0, vega := 0, gamma := 0 }

/-- One resolved position leg.  Fields mirror the `OptionLegRepr` view
documented in `src/Usage.md` (option_type, strike_price, quantity,
days_to_expiration, volatility, mark, delta, vega, theta, gamma); the
volatility is absent (`none`) for stock legs, as in the documented output. -/
structure OptionLeg where
  kind : OptionKind
  strike : ℝ
  quantity : ℤ
  volatility : Option ℝ
  daysToExpiration : ℝ
  mark : ℝ
  delta : ℝ
  theta : ℝ
  vega : ℝ
  gamma : ℝ

/-- Input specification of a leg as accepted by `add_leg` in `src/Usage.md`:
kind, strike and signed quantity are required; volatility, days-to-expiration,
mark and delta are optional and resolved per the reconciliation policy. -/
structure LegSpec where
  kind : OptionKind
  strike : ℝ
  quantity : ℤ
  volatility : Option ℝ := none
  daysToExpiration : Option ℝ := none
  mark : Option ℝ := none
  delta : Option ℝ := none

/-- Immutable P&L snapshot record, mirroring the `OptionPnLRepr` view of
`src/Usage.md`: target days-to-expiration, one-standard-deviation move,
probability-weighted expected profit and probability of profit. -/
structure PnLSnapshot where
  daysToExpiration : ℝ
  stddev : ℝ
  expectedProfit : ℝ
  pop : ℝ

/-- Strategy state: configuration defaults plus the owned ordered sequences
of legs and snapshots.  Fields and defaults mirror the `OptionStrategy`
constructor documented in `src/Usage.md` and `src/README.md`. -/
structure Strategy where
  underlyingPrice : ℝ
  underlyingSymbol : String := "XYZ"
  title : String := "Option Strategy"
  daysToExpiration : ℝ
  volatility : Option ℝ := none
  stddevRange : ℝ := 3
  numSimulations : ℕ := 1000
  monteCarlo : Bool := false
  r : ℝ := 0.05
  yearDays : ℝ := 365
  legs : List OptionLeg := []
  pnls : List PnLSnapshot := []

/-- Read-only composite summary record, mirroring the `OptionStrategyRepr`
field list of `src/Usage.md` (which carries theta, delta and vega but no
composite gamma field). -/
structure OptionStrategyRepr where
  underlyingPrice : ℝ
  underlyingSymbol : String
  daysToExpiration : ℝ
  volatility : ℝ
  expectedMove : ℝ
  pop : ℝ
  expectedProfit : ℝ
  cost : ℝ
  theta : ℝ
  delta : ℝ
  vega : ℝ
  title : String
  stddevRange : ℝ
  r : ℝ
  yearDays : ℝ

/-- Whether a leg is an option (call or put) rather than stock; the
discriminator behind the `option_legs()` / `stock_legs()` views. -/
def OptionLeg.isOption (l : OptionLeg) : Bool :=
  match l.kind with
  | .stock => false
  | _ => true

/-- Option legs of a strategy, excluding stock (`option_legs` of `src/Usage.md`). -/
def optionLegs (s : Strategy) : List OptionLeg :=
  s.legs.filter OptionLeg.isOption

/-- Stock legs of a strategy (`stock_legs` of `src/Usage.md`). -/
def stockLegs (s : Strategy) : List OptionLeg :=
  s.legs.filter fun l => !l.isOption

/-- Contract multiplier: 100 for standard option contracts, 1 for shares. -/
noncomputable def contractMultiplier (kind : OptionKind) : ℝ :=
  match kind with
  | .stock => 1
  | _ => 100

/-- Composite entry cost of a list of legs: signed sum of
mark x quantity x contract multiplier.  Verified against the worked example
of `src/Usage.md` (cost 10026.751992378211 for the three documented legs). -/
noncomputable def compositeCost (legs : List OptionLeg) : ℝ :=
  (legs.map fun l => l.mark * (l.quantity : ℝ) * contractMultiplier l.kind).sum

/-- Composite delta: sum of per-leg delta x signed quantity.  No contract
multiplier is applied: the summary output of `src/Usage.md` reports delta
100.43067084654685 for legs of delta-quantity products 0.2492..., 0.1814...
and 100, which is their plain sum. -/
noncomputable def compositeDelta (legs : List OptionLeg) : ℝ :=
  (legs.map fun l => l.delta * (l.quantity : ℝ)).sum

/-- Composite theta: sum of per-leg theta x signed quantity (no contract
multiplier, per the worked output of `src/Usage.md`). -/
noncomputable def compositeTheta (legs : List OptionLeg) : ℝ :=
  (legs.map fun l => l.theta * (l.quantity : ℝ)).sum

/-- Composite vega: sum of per-leg vega x signed quantity (no contract
multiplier, per the worked output of `src/Usage.md`). -/
noncomputable def compositeVega (legs : List OptionLeg) : ℝ :=
  (legs.map fun l => l.vega * (l.quantity : ℝ)).sum

/-- Composite gamma: sum of per-leg gamma x signed quantity. -/
noncomputable def compositeGamma (legs : List OptionLeg) : ℝ :=
  (legs.map fun l => l.gamma * (l.quantity : ℝ)).sum

/-- Effective strategy volatility.  Modelled from the spec: §3 — an explicit
strategy volatility wins; otherwise the quantity-weighted average of the
option legs' volatilities; with no option legs the documented global default
0.22 applies (`src/Usage.md`, Notes). -/
noncomputable def effectiveVolatility (s : Strategy) : ℝ :=
  match s.volatility with
  | some v => v
  | none =>
      let opts := s.legs.filter OptionLeg.isOption
      let w := (opts.map fun l => |(l.quantity : ℝ)|).sum
      if w = 0 then 0.22
      else (opts.map fun l => l.volatility.getD 0 * |(l.quantity : ℝ)|).sum / w

/-- Expected move of the underlying: one standard deviation of price at the
given horizon.  Modelled from the spec: §4.3,
`expectedMove(S, vol, days) = S * vol * sqrt(days / yearDays)`. -/
noncomputable def expectedMove (S vol days yearDays : ℝ) : ℝ :=
  S * vol * Real.sqrt (days / yearDays)

/-- Modelled from the spec: §4.2 VolatilitySolver — Newton-Raphson iteration
on the pricing model, fuel-bounded (100 steps), converging when the model
price is within 1e-5 of the observed mark, failing with a ConvergenceError
when vega is numerically zero or the iteration bound is exhausted, and
flooring the volatility iterate at a small positive constant. -/
noncomputable def solveVol (kind : OptionKind) (S K days r yearDays mark : ℝ) :
    ℕ → ℝ → Except SimError ℝ
  | 0, _ => .error .convergenceError
  | fuel + 1, vol =>
      let res := blackScholes kind S K days vol r yearDays
      if |res.price - mark| < 1e-5 then .ok vol
      else if |res.vega| < 1e-9 then .error .convergenceError
      else solveVol kind S K days r yearDays mark fuel
        (max 0.001 (vol - (res.price - mark) / res.vega))

/-- Modelled from the spec: §4.4 leg resolution policy.  Stock legs bypass
pricing entirely: mark is the underlying price, delta is 1 per share, the
other Greeks are zero, no volatility is recorded, and the stored
days-to-expiration is the documented placeholder 1000 (`src/Usage.md` worked
output).  Option legs validate positivity of underlying and strike, default
days-to-expiration from the strategy, then: explicit mark and volatility are
both kept as given (Greeks from the pricing model at that volatility); a mark
alone has volatility recovered by the solver; a volatility alone (or neither,
via the strategy default) has the mark computed by the pricing model.  An
explicitly supplied delta overrides the computed one. -/
noncomputable def resolveLeg (s : Strategy) (spec : LegSpec) :
    Except SimError OptionLeg :=
  match spec.kind with
  | .stock =>
      .ok { kind := .stock, strike := spec.strike, quantity := spec.quantity,
            volatility := none, daysToExpiration := 1000,
            mark := s.underlyingPrice, delta := 1, theta := 0, vega := 0,
            gamma := 0 }
  | k =>
      if s.underlyingPrice ≤ 0 ∨ spec.strike ≤ 0 then .error .invalidInput
      else
        let days := spec.daysToExpiration.getD s.daysToExpiration
        match spec.mark, spec.volatility with
        | some m, some v =>
            let res := blackScholes k s.underlyingPrice spec.strike days v s.r s.yearDays
            .ok { kind := k, strike := spec.strike, quantity := spec.quantity,
                  volatility := some v, daysToExpiration := days, mark := m,
                  delta := spec.delta.getD res.delta, theta := res.theta,
                  vega := res.vega, gamma := res.gamma }
        | some m, none =>
            match solveVol k s.underlyingPrice spec.strike days s.r s.yearDays m 100 0.2 with
            | .error e => .error e
            | .ok v =>
                let res := blackScholes k s.underlyingPrice spec.strike days v s.r s.yearDays
                .ok { kind := k, strike := spec.strike, quantity := spec.quantity,
                      volatility := some v, daysToExpiration := days, mark := m,
                      delta := spec.delta.getD res.delta, theta := res.theta,
                      vega := res.vega, gamma := res.gamma }
        | none, vopt =>
            let v := vopt.getD (effectiveVolatility s)
            let res := blackScholes k s.underlyingPrice spec.strike days v s.r s.yearDays
            .ok { kind := k, strike := spec.strike, quantity := spec.quantity,
                  volatility := some v, daysToExpiration := days,
                  mark := res.price, delta := spec.delta.getD res.delta,
                  theta := res.theta, vega := res.vega, gamma := res.gamma }

/-- Append a resolved leg to the strategy (`add_leg` of `src/Usage.md`). -/
noncomputable def addLeg (s : Strategy) (spec : LegSpec) :
    Except SimError Strategy :=
  (resolveLeg s spec).map fun l => { s with legs := s.legs ++ [l] }

/-- Lognormal probability density of the underlying at horizon `t` (years)
under the risk-neutral drift, used to weight the sampled price grid.
Modelled from the spec: §4.3. -/
noncomputable def lognormalPdf (S0 vol r t x : ℝ) : ℝ :=
  if x ≤ 0 ∨ t ≤ 0 then 0
  else (x * vol * Real.sqrt t * Real.sqrt (2 * Real.pi))⁻¹ *
    Real.exp (-(Real.log x - (Real.log S0 + (r - vol ^ 2 / 2) * t)) ^ 2 /
      (2 * vol ^ 2 * t))

/-- Ordered price grid of `numSimulations` points spanning
`[S - stddevRange * sigma, S + stddevRange * sigma]`.
Modelled from the spec: §4.3. -/
noncomputable def priceGrid (s : Strategy) (sigma : ℝ) : List ℝ :=
  let lo := s.underlyingPrice - s.stddevRange * sigma
  let hi := s.underlyingPrice + s.stddevRange * sigma
  (List.range s.numSimulations).map fun j =>
    lo + (hi - lo) * (j : ℝ) / ((s.numSimulations : ℝ) - 1)

/-- Value of one leg repriced at a hypothetical underlying price with `days`
remaining: intrinsic value at expiration, otherwise the pricing model at the
decayed time; options carry the contract multiplier, stock is share value.
Modelled from the spec: §4.3. -/
noncomputable def legValueAt (l : OptionLeg) (price days r yearDays : ℝ) : ℝ :=
  match l.kind with
  | .stock => price * (l.quantity : ℝ)
  | k =>
      (blackScholes k price l.strike days (l.volatility.getD 0) r yearDays).price *
        (l.quantity : ℝ) * 100

/-- Deterministic discretized expected-value integral.  Modelled from the
spec: §4.3 — at a snapshot with `d` days left, `D - d` days have elapsed;
the grid spans the strategy's stddev-range around the underlying, each grid
point's net payoff (legs repriced at `d` days minus entry cost) is weighted
by the renormalized lognormal density; returns (expected profit, probability
of profit). -/
noncomputable def detExpectedValue (s : Strategy) (d : ℝ) : ℝ × ℝ :=
  let vol := effectiveVolatility s
  let telapsed := (s.daysToExpiration - d) / s.yearDays
  let sigma := expectedMove s.underlyingPrice vol (s.daysToExpiration - d) s.yearDays
  let grid := priceGrid s sigma
  let dens := grid.map (lognormalPdf s.underlyingPrice vol s.r telapsed)
  let tot := dens.sum
  let cost := compositeCost s.legs
  let nets := grid.map fun p =>
    (s.legs.map fun l => legValueAt l p d s.r s.yearDays).sum - cost
  (((nets.zip dens).map fun vw => vw.1 * vw.2 / tot).sum,
   ((nets.zip dens).map fun vw => if 0 < vw.1 then vw.2 / tot else 0).sum)

/-- Expected-value dispatch.  Modelled from the spec: §4.3 and §7 — the
Monte-Carlo variant is part of the public contract but explicitly
unimplemented: requesting it fails with NotImplemented and must never fall
back to the deterministic grid; otherwise the deterministic integral runs. -/
noncomputable def computeExpectedValue (s : Strategy) (d : ℝ) :
    Except SimError (ℝ × ℝ) :=
  if s.monteCarlo then .error .notImplemented
  else .ok (detExpectedValue s d)

/-- Build the P&L snapshot for a target days-to-expiration `d`: the recorded
stddev is the expected move over the `D - d` elapsed days, matching the
snapshot table of `src/Usage.md` (e.g. stddev 6.3072 at dte 0 and 2.82067 at
dte 24 for D = 30, vol 0.22). -/
noncomputable def mkSnapshot (s : Strategy) (d : ℝ) : PnLSnapshot :=
  { daysToExpiration := d,
    stddev := expectedMove s.underlyingPrice (effectiveVolatility s)
      (s.daysToExpiration - d) s.yearDays,
    expectedProfit := (detExpectedValue s d).1,
    pop := (detExpectedValue s d).2 }

/-- Target days-to-expiration values requested by one `add_pnl` call.
Modelled from the documented behavior in `src/README.md` and `src/Usage.md`:
`partitions = N` (needing `N > 1`) yields the `N - 1` interior time points
`D * i / N` for `i = 1 ... N-1` in ascending order ("adds 4 pnls for points in
time before payoff" for `partitions = 5`; "if set to 3, it will create PnL
objects at 1/3 and 2/3 of the total expiration time"); `days_forward = d`
(needing `d > 0`) yields `max 0 (D - d)`; `dte = x` (needing
`0 ≤ x ≤ D`) yields `x`; no argument at all yields the payoff point `0`
("Calculate PnL at expiration: ostrat.add_pnl()"); supplying more than one
argument is an InvalidArgument usage error. -/
noncomputable def snapshotDtes (s : Strategy)
    (partitions daysForward dte : Option ℤ) : Except SimError (List ℝ) :=
  match partitions, daysForward, dte with
  | some n, none, none =>
      if n ≤ 1 then .error .invalidArgument
      else .ok (((List.range n.toNat).drop 1).map fun i =>
        s.daysToExpiration * (i : ℝ) / (n : ℝ))
  | none, some d, none =>
      if d ≤ 0 then .error .invalidArgument
      else .ok [max 0 (s.daysToExpiration - (d : ℝ))]
  | none, none, some x =>
      if (x : ℝ) < 0 ∨ s.daysToExpiration < (x : ℝ) then .error .invalidArgument
      else .ok [(x : ℝ)]
  | none, none, none => .ok [0]
  | _, _, _ => .error .invalidArgument

/-- The `add_pnl` operation: validate the argument combination, determine the
target days-to-expiration values, build one snapshot per target through the
expected-value engine (which is unimplemented for Monte-Carlo strategies),
and append them to the strategy's snapshot sequence, preserving all
previously stored snapshots. -/
noncomputable def addPnl (s : Strategy)
    (partitions daysForward dte : Option ℤ) : Except SimError Strategy :=
  match snapshotDtes s partitions daysForward dte with
  | .error e => .error e
  | .ok ds =>
      if s.monteCarlo then .error .notImplemented
      else .ok { s with pnls := s.pnls ++ ds.map (mkSnapshot s) }

/-- The composite summary (`repr()` of `src/Usage.md`): aggregates cost and
Greeks over the legs and evaluates the probability engine at the payoff
point; fails when the unimplemented Monte-Carlo engine is requested. -/
noncomputable def strategyRepr (s : Strategy) : Except SimError OptionStrategyRepr :=
  (computeExpectedValue s 0).map fun ev =>
    { underlyingPrice := s.underlyingPrice,
      underlyingSymbol := s.underlyingSymbol,
      daysToExpiration := s.daysToExpiration,
      volatility := effectiveVolatility s,
      expectedMove := expectedMove s.underlyingPrice (effectiveVolatility s)
        s.daysToExpiration s.yearDays,
      pop := ev.2,
      expectedProfit := ev.1,
      cost := compositeCost s.legs,
      theta := compositeTheta s.legs,
      delta := compositeDelta s.legs,
      vega := compositeVega s.legs,
      title := s.title,
      stddevRange := s.stddevRange,
      r := s.r,
      yearDays := s.yearDays }

/-- The long-call leg of the worked example of `src/Usage.md` (lines 176-190),
with the exact documented resolved values. -/
noncomputable def exLegCall : OptionLeg :=
  { kind := .call, strike := 105, quantity := 1, volatility := some 0.22,
    daysToExpiration := 30, mark := 0.9082256524837398,
    delta := 0.2492444084617758, theta := -0.40752074257807835,
    vega := 9.095734529230747, gamma := 0.050302168229836706 }

/-- The short-put leg of the worked example of `src/Usage.md` (lines 191-204),
with the exact documented resolved values. -/
noncomputable def exLegPut : OptionLeg :=
  { kind := .put, strike := 95, quantity := -1, volatility := some 0.22,
    daysToExpiration := 30, mark := 0.6407057287016222,
    delta := -0.18142643808507608, theta := 0.33794013762240327,
    vega := -7.5600973093557196, gamma := 0.04180962905931573 }

/-- The 100-share stock leg of the worked example of `src/Usage.md`
(lines 205-218), with the exact documented resolved values. -/
noncomputable def exLegStock : OptionLeg :=
  { kind := .stock, strike := 100, quantity := 100, volatility := none,
    daysToExpiration := 1000, mark := 100, delta := 1, theta := 0, vega := 0,
    gamma := 0 }

/-- Strategy state of the worked example of `src/Usage.md` after the three
`add_leg` calls: underlying 100, 30 days to expiration, volatility 0.22. -/
noncomputable def exUsage : Strategy :=
  { underlyingPrice := 100, daysToExpiration := 30, volatility := some 0.22,
    legs := [exLegCall, exLegPut, exLegStock] }

/-- Fresh strategy fixture with the defaults of the worked example
(underlying 100, 30 days to expiration) and no legs or snapshots yet. -/
noncomputable def exStrat : Strategy :=
  { underlyingPrice := 100, daysToExpiration := 30 }

/-- Arbitrary pre-existing snapshot fixture, used to observe that `add_pnl`
preserves previously stored snapshots. -/
noncomputable def exPriorSnap : PnLSnapshot :=
  { daysToExpiration := 7, stddev := 2, expectedProfit := 5, pop := 0.5 }

/-- Strategy fixture that already holds one snapshot. -/
noncomputable def exStratWithSnap : Strategy :=
  { exStrat with pnls := [exPriorSnap] }

/-- Strategy fixture with the Monte-Carlo flag requested. -/
noncomputable def exStratMC : Strategy :=
  { exStrat with monteCarlo := true }

/-- Stated from the claim's words, for comparison with `compositeDelta`:
composite delta as the sum over legs of per-leg delta x signed quantity x
contract multiplier (100 for option legs, 1 for stock). -/
noncomputable def claimDeltaWithMultiplier (legs : List OptionLeg) : ℝ :=
  (legs.map fun l => l.delta * (l.quantity : ℝ) * contractMultiplier l.kind).sum

theorem normPdf_fun_eq :
    normPdf = fun x : ℝ =>
      (Real.sqrt (2 * Real.pi))⁻¹ * Real.exp (-(1 / 2) * x ^ 2) := by
  funext x
  simp only [normPdf]
  congr 1
  ring_nf

theorem normPdf_even (t : ℝ) : normPdf (-t) = normPdf t := by
  simp [normPdf, neg_sq]

theorem normPdf_integrable : Integrable normPdf := by
  rw [normPdf_fun_eq]
  exact (integrable_exp_neg_mul_sq (by norm_num)).const_mul _

theorem integral_normPdf : ∫ x : ℝ, normPdf x = 1 := by
  rw [normPdf_fun_eq]
  rw [MeasureTheory.integral_mul_left]
  rw [integral_gaussian]
  rw [show Real.pi / (1 / 2) = 2 * Real.pi by ring]
  exact inv_mul_cancel₀ (ne_of_gt (Real.sqrt_pos.mpr (by positivity)))

theorem normCdf_add_neg (x : ℝ) : normCdf x + normCdf (-x) = 1 := by
  have h1 : normCdf (-x) = ∫ t in Set.Ioi x, normPdf t := by
    rw [normCdf]
    rw [show (∫ t in Set.Iic (-x), normPdf t) =
        ∫ t in Set.Iic (-x), normPdf (-t) from
      MeasureTheory.integral_congr_ae
        (Filter.Eventually.of_forall fun t => (normPdf_even t).symm)]
    simpa using integral_comp_neg_Iic (-x) normPdf
  rw [normCdf, h1,
    intervalIntegral.integral_Iic_add_Ioi normPdf_integrable.integrableOn
      normPdf_integrable.integrableOn,
    integral_normPdf]

/-- C8: for every underlying price S > 0, strike K > 0, positive time to
expiration, volatility > 0 and any risk-free rate, the pricing model's call
and put prices at identical inputs satisfy put-call parity,
call - put = S - K * exp(-r * t) with t = days / yearDays, within an absolute
tolerance of 1e-6 (in the real-valued model the identity is exact). -/
theorem blackScholes_put_call_parity (S K days vol r yearDays : ℝ)
    (hS : 0 < S) (hK : 0 < K) (hdays : 0 < days) (hvol : 0 < vol)
    (hyear : 0 < yearDays) :
    |(blackScholes .call S K days vol r yearDays).price -
      (blackScholes .put S K days vol r yearDays).price -
      (S - K * Real.exp (-r * (days / yearDays)))| ≤ 1e-6 := by
  have hcond : ¬(days ≤ 0 ∨ vol ≤ 0) := by
    push_neg
    exact ⟨hdays, hvol⟩
  simp only [blackScholes, if_neg hcond]
  have h1 := normCdf_add_neg
    ((Real.log (S / K) + (r + vol ^ 2 / 2) * (days / yearDays)) /
      (vol * Real.sqrt (days / yearDays)))
  have h2 := normCdf_add_neg
    ((Real.log (S / K) + (r + vol ^ 2 / 2) * (days / yearDays)) /
      (vol * Real.sqrt (days / yearDays)) - vol * Real.sqrt (days / yearDays))
  have hz :
      S * normCdf ((Real.log (S / K) + (r + vol ^ 2 / 2) * (days / yearDays)) /
          (vol * Real.sqrt (days / yearDays))) -
        K * Real.exp (-r * (days / yearDays)) *
          normCdf ((Real.log (S / K) + (r + vol ^ 2 / 2) * (days / yearDays)) /
            (vol * Real.sqrt (days / yearDays)) - vol * Real.sqrt (days / yearDays)) -
        (K * Real.exp (-r * (days / yearDays)) *
            normCdf (-((Real.log (S / K) + (r + vol ^ 2 / 2) * (days / yearDays)) /
              (vol * Real.sqrt (days / yearDays)) - vol * Real.sqrt (days / yearDays))) -
          S * normCdf (-((Real.log (S / K) + (r + vol ^ 2 / 2) * (days / yearDays)) /
            (vol * Real.sqrt (days / yearDays))))) -
        (S - K * Real.exp (-r * (days / yearDays))) = 0 := by
    linear_combination S * h1 - K * Real.exp (-r * (days / yearDays)) * h2
  rw [hz]
  norm_num

/-- C10: at days-to-expiration 0 the pricing model returns exactly the
intrinsic value as the price, zero theta, vega and gamma, and delta 1 (call)
or -1 (put) strictly in-the-money and 0 otherwise. -/
theorem blackScholes_zero_dte (S K vol r yearDays : ℝ) :
    blackScholes .call S K 0 vol r yearDays =
      { price := intrinsicValue .call S K, delta := if K < S then 1 else 0,
        theta := 0, vega := 0, gamma := 0 } ∧
    blackScholes .put S K 0 vol r yearDays =
      { price := intrinsicValue .put S K, delta := if S < K then -1 else 0,
        theta := 0, vega := 0, gamma := 0 } := by
  constructor <;> simp [blackScholes, intrinsicValue]

theorem blackScholes_put_call_parity_witness :
    (0 : ℝ) < 100 ∧ (0 : ℝ) < 95 ∧ (0 : ℝ) < 30 ∧ (0 : ℝ) < 0.22 ∧
    (0 : ℝ) < 365 ∧
    |(blackScholes .call 100 95 30 0.22 0.05 365).price -
      (blackScholes .put 100 95 30 0.22 0.05 365).price -
      (100 - 95 * Real.exp (-0.05 * ((30 : ℝ) / 365)))| ≤ 1e-6 :=
  ⟨by norm_num, by norm_num, by norm_num, by norm_num, by norm_num,
    blackScholes_put_call_parity 100 95 30 0.22 0.05 365 (by norm_num)
      (by norm_num) (by norm_num) (by norm_num) (by norm_num)⟩

/-- C5: for every strategy with the Monte-Carlo flag set, the expected-value
path fails with a NotImplemented error — both the raw expected-value dispatch
and the composite summary that consumes it — and therefore never silently
returns a result computed by the deterministic grid method. -/
theorem monteCarlo_notImplemented (s : Strategy) (d : ℝ)
    (hmc : s.monteCarlo = true) :
    computeExpectedValue s d = .error .notImplemented ∧
    strategyRepr s = .error .notImplemented := by
  refine ⟨?_, ?_⟩ <;> simp [computeExpectedValue, strategyRepr, hmc, Except.map]

theorem monteCarlo_notImplemented_witness :
    exStratMC.monteCarlo = true ∧
    computeExpectedValue exStratMC 0 = .error .notImplemented ∧
    strategyRepr exStratMC = .error .notImplemented :=
  ⟨rfl, monteCarlo_notImplemented exStratMC 0 rfl⟩

/-- C3 (amended): a stock leg resolves without any pricing-model call: the
mark is the underlying price, delta is 1 per share (the signed quantity
enters only at aggregation), theta, vega and gamma are zero, no volatility
is recorded, and the stored days-to-expiration is the documented placeholder
1000. -/
theorem resolveLeg_stock (s : Strategy) (spec : LegSpec)
    (hk : spec.kind = OptionKind.stock) :
    resolveLeg s spec = .ok
      { kind := .stock, strike := spec.strike, quantity := spec.quantity,
        volatility := none, daysToExpiration := 1000,
        mark := s.underlyingPrice, delta := 1, theta := 0, vega := 0,
        gamma := 0 } := by
  rcases spec with ⟨k, K, q, v, dte, m, del⟩
  cases hk
  rfl

theorem resolveLeg_stock_witness :
    ({ kind := .stock, strike := 100, quantity := 100 } : LegSpec).kind =
      OptionKind.stock ∧
    resolveLeg exStrat { kind := .stock, strike := 100, quantity := 100 } =
      .ok { kind := .stock, strike := 100, quantity := 100,
            volatility := none, daysToExpiration := 1000, mark := 100,
            delta := 1, theta := 0, vega := 0, gamma := 0 } :=
  ⟨rfl, resolveLeg_stock exStrat { kind := .stock, strike := 100, quantity := 100 } rfl⟩

/-- C3 (counterexample): the claim states the resolved stock leg's delta
equals the signed quantity; in the documented worked example of
`src/Usage.md` the 100-share stock leg resolves with delta 1, not 100. -/
theorem stock_leg_delta_is_per_share :
    ((resolveLeg exStrat { kind := .stock, strike := 100, quantity := 100 }).toOption.map
      OptionLeg.delta) = some 1 ∧
    ((resolveLeg exStrat { kind := .stock, strike := 100, quantity := 100 }).toOption.map
      OptionLeg.quantity) = some 100 ∧
    (1 : ℝ) ≠ ((100 : ℤ) : ℝ) := by
  refine ⟨rfl, rfl, by norm_num⟩

theorem mkSnapshot_dte (s : Strategy) (d : ℝ) :
    (mkSnapshot s d).daysToExpiration = d := rfl

/-- C7: every successful `add_pnl` call appends its snapshots at the end of
the strategy's snapshot sequence: the previously stored snapshots remain
present and unchanged as the initial segment of the new sequence, and the
legs are untouched. -/
theorem addPnl_appends_preserving_prior (s : Strategy)
    (partitions daysForward dte : Option ℤ) (s' : Strategy)
    (h : addPnl s partitions daysForward dte = .ok s') :
    s'.pnls = s.pnls ++ s'.pnls.drop s.pnls.length ∧ s'.legs = s.legs := by
  cases hd : snapshotDtes s partitions daysForward dte with
  | error e => simp [addPnl, hd] at h
  | ok ds =>
      simp only [addPnl, hd] at h
      by_cases hmc : s.monteCarlo
      · simp [hmc] at h
      · rw [if_neg hmc] at h
        have hs' : s' = { s with pnls := s.pnls ++ ds.map (mkSnapshot s) } := by
          cases h
          rfl
        subst hs'
        simp [List.drop_left]

theorem addPnl_appends_preserving_prior_witness :
    ({ exStratWithSnap with
        pnls := [exPriorSnap, mkSnapshot exStratWithSnap 3] } : Strategy).pnls =
      exStratWithSnap.pnls ++
        ({ exStratWithSnap with
            pnls := [exPriorSnap, mkSnapshot exStratWithSnap 3] } : Strategy).pnls.drop
          exStratWithSnap.pnls.length ∧
    ({ exStratWithSnap with
        pnls := [exPriorSnap, mkSnapshot exStratWithSnap 3] } : Strategy).legs =
      exStratWithSnap.legs :=
  addPnl_appends_preserving_prior exStratWithSnap none none (some 3) _ (by
    show addPnl exStratWithSnap none none (some 3) = _
    unfold addPnl snapshotDtes
    norm_num [exStratWithSnap, exStrat])

theorem addPnl_partitions_exStrat_eq :
    addPnl exStrat (some 5) none none =
      .ok { exStrat with pnls :=
        [mkSnapshot exStrat 6, mkSnapshot exStrat 12, mkSnapshot exStrat 18,
         mkSnapshot exStrat 24] } := by
  norm_num [addPnl, snapshotDtes, exStrat, List.range_succ,
    show Int.toNat 5 = 5 from rfl]

/-- C1 (counterexample): the claim states `addPnl(partitions=5)` on a
strategy with default days-to-expiration 30 produces exactly five snapshots
at days-to-expiration [0, 6, 12, 18, 24]; per the documented behavior
("adds 4 pnls for points in time before payoff", `src/Usage.md` line 141)
the call yields four snapshots at [6, 12, 18, 24] — the payoff snapshot at 0
comes only from a separate no-argument call. -/
theorem addPnl_partitions_five_not_five_snapshots :
    ((addPnl exStrat (some 5) none none).toOption.map fun s' =>
      s'.pnls.map PnLSnapshot.daysToExpiration) = some [6, 12, 18, 24] ∧
    ((addPnl exStrat (some 5) none none).toOption.map fun s' =>
      s'.pnls.map PnLSnapshot.daysToExpiration) ≠ some [0, 6, 12, 18, 24] ∧
    ((addPnl exStrat (some 5) none none).toOption.map fun s' =>
      s'.pnls.length) ≠ some 5 := by
  rw [addPnl_partitions_exStrat_eq]
  refine ⟨by simp [mkSnapshot_dte, Except.toOption], ?_, ?_⟩
  · rw [show ((Except.ok { exStrat with pnls :=
        [mkSnapshot exStrat 6, mkSnapshot exStrat 12, mkSnapshot exStrat 18,
         mkSnapshot exStrat 24] } : Except SimError Strategy).toOption.map fun s' =>
        s'.pnls.map PnLSnapshot.daysToExpiration) = some [6, 12, 18, 24]
      from by simp [mkSnapshot_dte, Except.toOption]]
    simp
  · simp [Except.toOption]

/-- C1 (amended): `addPnl(partitions = N)` with `N > 1` on a non-Monte-Carlo
strategy succeeds and appends exactly `N - 1` snapshots, at days-to-expiration
`D * i / N` for `i = 1 ... N-1` in ascending order (the interior time points;
the payoff point `dte = 0` is produced by a separate no-argument call). -/
theorem addPnl_partitions_appends_interior_points (s : Strategy) (n : ℤ)
    (hmc : s.monteCarlo = false) (hn : 1 < n) :
    (addPnl s (some n) none none).toOption.map
        (fun s' => s'.pnls.map PnLSnapshot.daysToExpiration) =
      some (s.pnls.map PnLSnapshot.daysToExpiration ++
        ((List.range n.toNat).drop 1).map fun i =>
          s.daysToExpiration * (i : ℝ) / (n : ℝ)) := by
  simp only [addPnl, snapshotDtes]
  rw [if_neg (by omega : ¬n ≤ 1)]
  rw [hmc]
  simp [mkSnapshot_dte, Except.toOption, Function.comp]

theorem addPnl_partitions_appends_interior_points_witness :
    exStrat.monteCarlo = false ∧ (1 : ℤ) < 4 ∧
    (addPnl exStrat (some 4) none none).toOption.map
        (fun s' => s'.pnls.map PnLSnapshot.daysToExpiration) =
      some [7.5, 15, 22.5] := by
  refine ⟨rfl, by norm_num, ?_⟩
  have h := addPnl_partitions_appends_interior_points exStrat 4 rfl (by norm_num)
  rw [h]
  norm_num [exStrat, List.range_succ, show Int.toNat 4 = 4 from rfl]

/-- C6 (counterexample): the claim states an `addPnl` call with none of
{partitions, daysForward, dte} set fails with InvalidArgument and adds no
snapshot; per the documented behavior ("Calculate PnL at expiration:
ostrat.add_pnl()", `src/Usage.md` lines 129-130) the no-argument call
succeeds and appends the payoff snapshot at days-to-expiration 0. -/
theorem addPnl_no_args_succeeds :
    ((addPnl exStrat none none none).toOption.map fun s' =>
      s'.pnls.map PnLSnapshot.daysToExpiration) = some [0] ∧
    addPnl exStrat none none none ≠ .error .invalidArgument := by
  have hred : addPnl exStrat none none none =
      .ok { exStrat with pnls := [mkSnapshot exStrat 0] } := by
    norm_num [addPnl, snapshotDtes, exStrat]
  rw [hred]
  exact ⟨by simp [mkSnapshot_dte, Except.toOption], by simp⟩

/-- C6 (amended): supplying more than one of {partitions, daysForward, dte}
to `addPnl` fails with InvalidArgument (and, the call failing, no snapshot is
added); supplying none of them is not an error: it computes the payoff
snapshot at days-to-expiration 0 and appends it. -/
theorem addPnl_argument_validation (s : Strategy)
    (partitions daysForward dte : Option ℤ) (hmc : s.monteCarlo = false) :
    (1 < (if partitions.isSome then 1 else 0) +
        (if daysForward.isSome then 1 else 0) +
        (if dte.isSome then 1 else 0) →
      addPnl s partitions daysForward dte = .error .invalidArgument) ∧
    (partitions = none → daysForward = none → dte = none →
      (addPnl s partitions daysForward dte).toOption.map
          (fun s' => s'.pnls.map PnLSnapshot.daysToExpiration) =
        some (s.pnls.map PnLSnapshot.daysToExpiration ++ [0])) := by
  constructor
  · intro hcount
    match partitions, daysForward, dte with
    | none, none, none => simp at hcount
    | some a, none, none => simp at hcount
    | none, some b, none => simp at hcount
    | none, none, some c => simp at hcount
    | some a, some b, none => simp [addPnl, snapshotDtes]
    | some a, none, some c => simp [addPnl, snapshotDtes]
    | none, some b, some c => simp [addPnl, snapshotDtes]
    | some a, some b, some c => simp [addPnl, snapshotDtes]
  · rintro rfl rfl rfl
    simp only [addPnl, snapshotDtes]
    rw [hmc]
    simp [mkSnapshot_dte, Except.toOption]

theorem addPnl_argument_validation_witness :
    addPnl exStrat (some 2) (some 3) none = .error .invalidArgument ∧
    ((addPnl exStrat none none none).toOption.map fun s' =>
      s'.pnls.map PnLSnapshot.daysToExpiration) = some [0] := by
  constructor
  · exact (addPnl_argument_validation exStrat (some 2) (some 3) none rfl).1
      (by norm_num)
  · have h := (addPnl_argument_validation exStrat none none none rfl).2
      rfl rfl rfl
    simpa [exStrat] using h

theorem sum_eq_sum_filter_isOption (legs : List OptionLeg) (f : OptionLeg → ℝ)
    (h : ∀ l ∈ legs, l.isOption = false → f l = 0) :
    (legs.map f).sum = ((legs.filter OptionLeg.isOption).map f).sum := by
  induction legs with
  | nil => rfl
  | cons l ls ih =>
      have ihls := ih fun x hx hfx => h x (List.mem_cons_of_mem _ hx) hfx
      by_cases hl : l.isOption
      · simp [List.filter_cons, hl, ihls]
      · have h0 : f l = 0 := h l (List.mem_cons_self _ _) (by simpa using hl)
        simp [List.filter_cons, hl, h0, ihls]

theorem isOption_false_iff_stock (l : OptionLeg) :
    l.isOption = false ↔ l.kind = OptionKind.stock := by
  cases hk : l.kind <;> simp [OptionLeg.isOption, hk]

/-- C2 (amended): the composite Greeks the summary reports (delta, theta and
vega; no composite gamma field exists) are the sums over the legs of the
per-leg Greek times the signed quantity, with no contract multiplier; for
strategies whose stock legs carry zero theta and vega (which leg resolution
guarantees), the theta and vega sums range over the option legs only, so
stock legs contribute only to delta. -/
theorem strategyRepr_greeks_sum (s : Strategy) (hmc : s.monteCarlo = false)
    (hstock : ∀ l ∈ s.legs, l.kind = OptionKind.stock →
      l.theta = 0 ∧ l.vega = 0) :
    (strategyRepr s).toOption.map (fun v => (v.delta, v.theta, v.vega)) =
      some ((s.legs.map fun l => l.delta * (l.quantity : ℝ)).sum,
        ((optionLegs s).map fun l => l.theta * (l.quantity : ℝ)).sum,
        ((optionLegs s).map fun l => l.vega * (l.quantity : ℝ)).sum) := by
  have hth : compositeTheta s.legs =
      ((optionLegs s).map fun l => l.theta * (l.quantity : ℝ)).sum := by
    refine sum_eq_sum_filter_isOption s.legs _ fun l hl hfx => ?_
    rw [(hstock l hl ((isOption_false_iff_stock l).mp hfx)).1, zero_mul]
  have hv : compositeVega s.legs =
      ((optionLegs s).map fun l => l.vega * (l.quantity : ℝ)).sum := by
    refine sum_eq_sum_filter_isOption s.legs _ fun l hl hfx => ?_
    rw [(hstock l hl ((isOption_false_iff_stock l).mp hfx)).2, zero_mul]
  simp [strategyRepr, computeExpectedValue, hmc, Except.map, Except.toOption,
    compositeDelta, hth, hv]

theorem strategyRepr_greeks_sum_witness :
    (strategyRepr exUsage).toOption.map (fun v => (v.delta, v.theta, v.vega)) =
      some (100.43067084654685188, -0.74546088020048162, 16.6558318385864666) := by
  have h := strategyRepr_greeks_sum exUsage rfl (by
    intro l hl hk
    fin_cases hl <;>
      simp_all [exUsage, exLegCall, exLegPut, exLegStock])
  rw [h]
  norm_num [exUsage, exLegCall, exLegPut, exLegStock, optionLegs,
    OptionLeg.isOption, List.filter_cons]

/-- C2 (counterexample): the claim applies the contract multiplier (100 for
option legs) inside the composite-Greek sums; on the three documented legs of
`src/Usage.md` that formula yields delta 143.067..., while the engine's
reported composite delta is 100.43067084654685 — the plain quantity-weighted
sum without a multiplier. -/
theorem compositeDelta_no_contract_multiplier :
    (strategyRepr exUsage).toOption.map OptionStrategyRepr.delta =
      some (100.43067084654685188 : ℝ) ∧
    claimDeltaWithMultiplier exUsage.legs = (143.067084654685188 : ℝ) ∧
    (100.43067084654685188 : ℝ) ≠ (143.067084654685188 : ℝ) := by
  refine ⟨?_, ?_, by norm_num⟩
  · simp [strategyRepr, computeExpectedValue, Except.map, Except.toOption,
      exUsage, compositeDelta]
    norm_num [exLegCall, exLegPut, exLegStock]
  · norm_num [claimDeltaWithMultiplier, contractMultiplier, exUsage,
      exLegCall, exLegPut, exLegStock]

theorem compositeCost_filter_split (legs : List OptionLeg) :
    compositeCost legs =
      ((legs.filter OptionLeg.isOption).map fun l =>
        l.mark * (l.quantity : ℝ) * 100).sum +
      ((legs.filter fun l => !l.isOption).map fun l =>
        l.mark * (l.quantity : ℝ) * 1).sum := by
  induction legs with
  | nil => simp [compositeCost]
  | cons l ls ih =>
      have hc : compositeCost (l :: ls) =
          l.mark * (l.quantity : ℝ) * contractMultiplier l.kind +
            compositeCost ls := by
        simp [compositeCost]
      cases hk : l.kind <;>
        simp [hc, ih, List.filter_cons, OptionLeg.isOption, hk,
          contractMultiplier] <;> ring

/-- C4: the composite cost the summary reports is the signed sum over all
legs of mark x quantity x contract multiplier, where the multiplier is 100
for call and put legs and 1 for stock legs, for any combination of option
and stock legs. -/
theorem strategyRepr_cost_eq_signed_sum (s : Strategy)
    (hmc : s.monteCarlo = false) :
    (strategyRepr s).toOption.map OptionStrategyRepr.cost =
      some (((optionLegs s).map fun l => l.mark * (l.quantity : ℝ) * 100).sum +
        ((stockLegs s).map fun l => l.mark * (l.quantity : ℝ) * 1).sum) := by
  simp only [strategyRepr, computeExpectedValue, hmc, Except.map,
    Except.toOption, Option.map_some, optionLegs, stockLegs, if_false,
    Bool.false_eq_true]
  exact congrArg some (compositeCost_filter_split s.legs)

theorem strategyRepr_cost_eq_signed_sum_witness :
    (strategyRepr exUsage).toOption.map OptionStrategyRepr.cost =
      some (10026.75199237821176 : ℝ) := by
  have h := strategyRepr_cost_eq_signed_sum exUsage rfl
  rw [h]
  norm_num [exUsage, exLegCall, exLegPut, exLegStock, optionLegs, stockLegs,
    OptionLeg.isOption, List.filter_cons]
